import Mathlib

/-!
Verification of the transaction-log iterator
(`yb/rocksdb/db/transaction_log_impl.{h,cc}`).

The iterator replays committed write batches from a list of WAL files in
sequence-number order.  This file gives a shallow embedding of
`TransactionLogIteratorImpl`: the mutable members of the class become the
fields of `IterState`, the external collaborators (the file list, the
filesystem, `versions_->LastSequence()`, and the framed-record reader) become
a fixed `LogItEnv`, and each member function becomes a Lean function on
`IterState`.  The framed-record reader is modelled by the list of records the
open file yields (`log::Reader` itself is out of scope per the source slice);
a record carries its byte size and the two header fields the iterator
extracts via `WriteBatchInternal` (start sequence and count).
`versions_->LastSequence()` is held fixed during a run of the model.
Reporter calls (`reporter_.Info` / `reporter_.Corruption`) only log, so they
are no-ops of the model.

The source contains a mutual recursion
(`UpdateCurrentWriteBatch` → `SeekToStartSequence(strict=true)` →
`UpdateCurrentWriteBatch`), which is broken here by a specialised copy of the
strict seek (`strictReseek`) whose loop inlines the acceptance branch of
`UpdateCurrentWriteBatch`: the strict seek clears `started_` before reading
and never sets it before returning, so the updates it performs never take the
re-seek branch.  The equality of `strictReseek` with the general
`seekToStartSequence` at `strict = true` is proved below
(`seekToStartSequence_strict_eq`), making the specialisation conservative.

The scanning loops are written with an explicit fuel argument so that every
definition is structurally recursive and computable by `rfl`/`decide`; the
public entry points supply fuel that provably suffices
(`nextLoopF_fuel_irrelevant`, `seekLoopF_fuel_irrelevant`).
-/

set_option maxHeartbeats 1000000

namespace TxnLogIter

/-- Status values this component produces or stores (shallow embedding of the
`rocksdb::Status` values reachable in `transaction_log_impl.cc`; `ioError`
stands for an arbitrary filesystem error returned by `Env::NewSequentialFile`). -/
inductive Status where
  | ok : Status
  | corruption (msg : String) : Status
  | notFound (msg : String) : Status
  | ioError (msg : String) : Status
deriving Repr, DecidableEq

/-- A framed record as yielded by the log reader, with the two fields the
iterator extracts from its fixed header via `WriteBatchInternal`:
`seq = WriteBatchInternal::Sequence(batch)` and
`count = WriteBatchInternal::Count(batch)`.  The payload itself is opaque to
the iterator; only its byte size (`record.size()`) is inspected. -/
structure LogRecord where
  size : Nat
  seq : Nat
  count : Nat
deriving Repr, DecidableEq

/-- `WalFileType` of the source: a live WAL file vs a rotated-out archived one. -/
inductive WalFileType where
  | kAliveLogFile : WalFileType
  | kArchivedLogFile : WalFileType
deriving Repr, DecidableEq

/-- `LogFileImpl` (transaction_log_impl.h): immutable metadata of one WAL file. -/
structure LogFileDesc where
  logNumber : Nat
  type : WalFileType
  startSequence : Nat
  sizeFileBytes : Nat
deriving Repr, DecidableEq

/-- Placeholder descriptor used where the source indexes `files_` without a
bounds check (`files_->at(i)` on an index that is in bounds in every reachable
state). -/
def defaultLogFile : LogFileDesc :=
  { logNumber := 0, type := WalFileType.kAliveLogFile,
    startSequence := 0, sizeFileBytes := 0 }

/-- The iterator's fixed collaborators: the snapshotted file list `files_`,
`versions_->LastSequence()` (held fixed over a run of the model), and the
filesystem, given per log number as the outcome of `Env::NewSequentialFile`
at the live path `LogFileName(dir_, n)` resp. the archived path
`ArchivedLogFileName(dir_, n)` — on success, the list of framed records the
`log::Reader` over that file yields. -/
structure LogItEnv where
  files : List LogFileDesc
  lastSequence : Nat
  liveOpen : Nat → Except Status (List LogRecord)
  archivedOpen : Nat → Except Status (List LogRecord)

/-- `TransactionLogIteratorImpl::OpenLogFile`: an archived file is opened only
at the archived path; a live file is tried at the live path first and on any
open error (including `NotFound`) retried at the archived path. -/
def OpenLogFile (env : LogItEnv) (f : LogFileDesc) :
    Except Status (List LogRecord) :=
  match f.type with
  | WalFileType.kArchivedLogFile => env.archivedOpen f.logNumber
  | WalFileType.kAliveLogFile =>
    match env.liveOpen f.logNumber with
    | Except.ok file => Except.ok file
    | Except.error _ => env.archivedOpen f.logNumber

/-- The mutable members of `TransactionLogIteratorImpl`.  `reader` is the list
of records the currently open `log::Reader` has not yet yielded (`UnmarkEOF`
is a no-op of the model because the file contents are fixed). -/
structure IterState where
  startingSequenceNumber : Nat
  started : Bool
  isValid : Bool
  currentStatus : Status
  currentFileIndex : Nat
  currentBatchSeq : Nat
  currentLastSeq : Nat
  currentBatch : Option LogRecord
  reader : List LogRecord
deriving Repr, DecidableEq

/-- `TransactionLogIteratorImpl::Valid`: `started_ && isValid_`. -/
def Valid (s : IterState) : Bool :=
  s.started && s.isValid

/-- `TransactionLogIteratorImpl::status`: returns `currentStatus_`. -/
def status (s : IterState) : Status :=
  s.currentStatus

/-- `BatchResult`: what `GetBatch` hands to the caller. -/
structure BatchResult where
  sequence : Nat
  batch : Option LogRecord
deriving Repr, DecidableEq

/-- `TransactionLogIteratorImpl::GetBatch`: asserts `isValid_` (the flag, not
`Valid()`), then moves `currentBatch_` out.  The model returns the result
together with the post-move state. -/
def GetBatch (s : IterState) : BatchResult × IterState :=
  ({ sequence := s.currentBatchSeq, batch := s.currentBatch },
   { s with currentBatch := none })

/-- `TransactionLogIteratorImpl::RestrictedRead`: refuses to read while
`currentLastSeq_ >= versions_->LastSequence()`; otherwise yields the next
record of the open reader (`none` also at end of file). -/
def RestrictedRead (env : LogItEnv) (s : IterState) :
    Option (LogRecord × IterState) :=
  if s.currentLastSeq ≥ env.lastSequence then
    none
  else
    match s.reader with
    | [] => none
    | r :: rest => some (r, { s with reader := rest })

/-- `TransactionLogIteratorImpl::IsBatchExpected`: compares the batch's start
sequence with the expected one (the mismatch message is only logged). -/
def IsBatchExpected (r : LogRecord) (expectedSeq : Nat) : Bool :=
  r.seq == expectedSeq

/-- The acceptance branch of `UpdateCurrentWriteBatch` (the code after the
re-seek check): record the batch's start and last sequence, stash the batch,
set `isValid_` and reset `currentStatus_` to OK.  The source asserts
`currentLastSeq_ <= versions_->LastSequence()` here; the assertion is settled
as a theorem below. -/
def acceptBatch (r : LogRecord) (s : IterState) : IterState :=
  { s with currentBatchSeq := r.seq,
           currentLastSeq := r.seq + r.count - 1,
           currentBatch := some r,
           isValid := true,
           currentStatus := Status.ok }

/-- Message of the strict-seek gap corruption. -/
def gapMsg : String :=
  "Gap in sequence number. Could not seek to required sequence number"

/-- Message latched when a non-strict seek misses the start sequence in a
multi-file list. -/
def skipMsg : String :=
  "Start sequence was not found, skipping to the next available"

/-- Message latched when the file list is exhausted below `LastSequence()`. -/
def noMoreDataMsg : String := "NO MORE DATA LEFT"

/-- Message of the transient gap status set before a re-seek. -/
def gapNotFoundMsg : String := "Gap in sequence numbers"

/-- Outcome of the read loop of `SeekToStartSequence`: the loop either
executed one of its `return` statements or fell through to the code after the
loop. -/
inductive SeekOutcome where
  | returned (s : IterState) : SeekOutcome
  | fellThrough (s : IterState) : SeekOutcome
deriving Repr, DecidableEq

/-- The read loop of `SeekToStartSequence` specialised to `strict = true` as
invoked from `UpdateCurrentWriteBatch`.  `started_` is false throughout the
loop (cleared at the top of `SeekToStartSequence`, set only at the successful
`return`), so the `UpdateCurrentWriteBatch` call in the loop body always takes
its acceptance branch; here it is inlined as `acceptBatch`
(`updateCurrentWriteBatch_not_started` and `seekToStartSequence_strict_eq`
below prove this specialisation faithful).  Fuel exhaustion cannot occur when
the fuel exceeds the reader length (`seekLoopF_fuel_irrelevant`). -/
def strictSeekLoopF (env : LogItEnv) : Nat → IterState → SeekOutcome
  | 0, s => SeekOutcome.fellThrough s
  | fuel + 1, s =>
    match RestrictedRead env s with
    | none => SeekOutcome.fellThrough s
    | some (r, s') =>
      if r.size < 12 then
        strictSeekLoopF env fuel s'
      else
        let s2 := acceptBatch r s'
        if s2.currentLastSeq ≥ s2.startingSequenceNumber then
          if s2.currentBatchSeq ≠ s2.startingSequenceNumber then
            SeekOutcome.returned { s2 with currentStatus := Status.corruption gapMsg }
          else
            SeekOutcome.returned { s2 with isValid := true, started := true }
        else
          strictSeekLoopF env fuel { s2 with isValid := false }

/-- `SeekToStartSequence(startFileIndex, strict = true)` as invoked from
`UpdateCurrentWriteBatch`: clear `started_`/`isValid_`, bounds-check the file
index, open the file, run the read loop; if the loop falls through, latch the
gap corruption (the `strict` branch after the loop). -/
def strictReseek (env : LogItEnv) (startFileIndex : Nat) (s : IterState) :
    IterState :=
  let s0 := { s with started := false, isValid := false }
  if env.files.length ≤ startFileIndex then
    s0
  else
    match OpenLogFile env (env.files.getD startFileIndex defaultLogFile) with
    | Except.error e => { s0 with currentStatus := e }
    | Except.ok c =>
      match strictSeekLoopF env (c.length + 1) { s0 with reader := c } with
      | SeekOutcome.returned t => t
      | SeekOutcome.fellThrough t =>
        { t with currentStatus := Status.corruption gapMsg }

/-- `TransactionLogIteratorImpl::UpdateCurrentWriteBatch`.  If the iterator
has started and the batch is not the expected continuation, mutate
`currentFileIndex_` (step back one file when the expected sequence lies
before the current file's start sequence, guarding index 0), set
`startingSequenceNumber_` to the expected sequence, latch the transient
`NotFound` gap status and re-enter the seek with `strict = true`; otherwise
accept the batch. -/
def updateCurrentWriteBatch (env : LogItEnv) (r : LogRecord) (s : IterState) :
    IterState :=
  let expectedSeq := s.currentLastSeq + 1
  if s.started && ! IsBatchExpected r expectedSeq then
    let idx :=
      if expectedSeq < (env.files.getD s.currentFileIndex defaultLogFile).startSequence then
        if s.currentFileIndex ≠ 0 then s.currentFileIndex - 1 else s.currentFileIndex
      else
        s.currentFileIndex
    strictReseek env idx
      { s with currentFileIndex := idx,
               startingSequenceNumber := expectedSeq,
               currentStatus := Status.notFound gapNotFoundMsg }
  else
    acceptBatch r s

/-- The `while(true)` loop of `NextImpl` (entered with `isValid_` already
cleared): clear the reader's EOF (a no-op here), read records — skipping
records shorter than 12 bytes — and on the first full record run
`UpdateCurrentWriteBatch` and return, setting `started_` on the internal
recovery path; when the reader is exhausted, open the next file (faulting on
an open error) or, past the last file, report clean exhaustion or
`NO MORE DATA LEFT`.  The `files_->size() - 1` of the source is `size_t`
arithmetic; its underflow at an empty file list is unreachable (the loop is
never entered without an opened file) and `Nat` truncation makes the guard
false there. -/
def nextLoopF (env : LogItEnv) (internal : Bool) :
    Nat → IterState → IterState
  | 0, s => s
  | fuel + 1, s =>
    match RestrictedRead env s with
    | some (r, s') =>
      if r.size < 12 then
        nextLoopF env internal fuel s'
      else
        let s2 := updateCurrentWriteBatch env r s'
        if internal && ! s2.started then { s2 with started := true } else s2
    | none =>
      if s.currentFileIndex < env.files.length - 1 then
        let idx := s.currentFileIndex + 1
        match OpenLogFile env (env.files.getD idx defaultLogFile) with
        | Except.error e =>
          { s with currentFileIndex := idx, isValid := false, currentStatus := e }
        | Except.ok c =>
          nextLoopF env internal fuel { s with currentFileIndex := idx, reader := c }
      else
        { s with isValid := false,
                 currentStatus :=
                   if s.currentLastSeq = env.lastSequence then Status.ok
                   else Status.corruption noMoreDataMsg }

/-- Fuel budget of one candidate file: one step to advance into it plus one
step per record it yields. -/
def fileFuel (env : LogItEnv) (f : LogFileDesc) : Nat :=
  match OpenLogFile env f with
  | Except.ok c => c.length + 1
  | Except.error _ => 1

/-- Fuel that provably suffices for `nextLoopF` from state `s`: the unread
records of the open file, plus the budget of every file after the current
one, plus one final step. -/
def nextFuel (env : LogItEnv) (s : IterState) : Nat :=
  s.reader.length +
    ((env.files.drop (s.currentFileIndex + 1)).map (fileFuel env)).sum + 1

/-- `NextImpl(internal = true)` as invoked at the end of a non-strict
`SeekToStartSequence`: clear `isValid_` and fall into the advance loop (the
`!internal && !started_` re-seek branch of `NextImpl` is dead for
`internal = true`). -/
def nextInternal (env : LogItEnv) (s : IterState) : IterState :=
  let s0 := { s with isValid := false }
  nextLoopF env true (nextFuel env s0) s0

/-- The read loop of `SeekToStartSequence` as written in the source (body
calls `UpdateCurrentWriteBatch`), with fuel.  On the only reachable entry
(`started_ = false`) it coincides with `strictSeekLoopF` when `strict`
(`seekLoopF_strict_eq_strictSeekLoopF`). -/
def seekLoopF (env : LogItEnv) (strict : Bool) :
    Nat → IterState → SeekOutcome
  | 0, s => SeekOutcome.fellThrough s
  | fuel + 1, s =>
    match RestrictedRead env s with
    | none => SeekOutcome.fellThrough s
    | some (r, s') =>
      if r.size < 12 then
        seekLoopF env strict fuel s'
      else
        let s2 := updateCurrentWriteBatch env r s'
        if s2.currentLastSeq ≥ s2.startingSequenceNumber then
          if strict && s2.currentBatchSeq ≠ s2.startingSequenceNumber then
            SeekOutcome.returned { s2 with currentStatus := Status.corruption gapMsg }
          else
            SeekOutcome.returned { s2 with isValid := true, started := true }
        else
          seekLoopF env strict fuel { s2 with isValid := false }

/-- `TransactionLogIteratorImpl::SeekToStartSequence(startFileIndex, strict)`:
clear `started_`/`isValid_`; return if the index is out of bounds; open the
file (latching the error status on failure); run the read loop.  If the loop
falls through: under `strict` latch the gap corruption; otherwise, with more
than one candidate file, latch the skip corruption and let the internal
`NextImpl` find the next available entry; with a single file return silently. -/
def seekToStartSequence (env : LogItEnv) (startFileIndex : Nat) (strict : Bool)
    (s : IterState) : IterState :=
  let s0 := { s with started := false, isValid := false }
  if env.files.length ≤ startFileIndex then
    s0
  else
    match OpenLogFile env (env.files.getD startFileIndex defaultLogFile) with
    | Except.error e => { s0 with currentStatus := e }
    | Except.ok c =>
      match seekLoopF env strict (c.length + 1) { s0 with reader := c } with
      | SeekOutcome.returned t => t
      | SeekOutcome.fellThrough t =>
        if strict then
          { t with currentStatus := Status.corruption gapMsg }
        else if env.files.length ≠ 1 then
          nextInternal env { t with currentStatus := Status.corruption skipMsg }
        else
          t

/-- `TransactionLogIteratorImpl::NextImpl`: clear `isValid_`; a public call
before the iterator has started re-runs the initial seek; otherwise advance. -/
def nextImpl (env : LogItEnv) (internal : Bool) (s : IterState) : IterState :=
  let s0 := { s with isValid := false }
  if ! internal && ! s0.started then
    seekToStartSequence env 0 false s0
  else
    nextLoopF env internal (nextFuel env s0) s0

/-- `TransactionLogIteratorImpl::Next`: `NextImpl(false)`. -/
def Next (env : LogItEnv) (s : IterState) : IterState :=
  nextImpl env false s

/-- The member initialisers of the constructor (`currentStatus_` is a
default-constructed `Status`, i.e. OK; no reader is open yet). -/
def initialState (seqNum : Nat) : IterState :=
  { startingSequenceNumber := seqNum,
    started := false,
    isValid := false,
    currentStatus := Status.ok,
    currentFileIndex := 0,
    currentBatchSeq := 0,
    currentLastSeq := 0,
    currentBatch := none,
    reader := [] }

/-- The constructor: initialise the members, then
`SeekToStartSequence()` (defaults `startFileIndex = 0`, `strict = false`). -/
def mkIterator (env : LogItEnv) (seqNum : Nat) : IterState :=
  seekToStartSequence env 0 false (initialState seqNum)

/-- Iterated public `Next` calls. -/
def iterNext (env : LogItEnv) : Nat → IterState → IterState
  | 0, s => s
  | n + 1, s => iterNext env n (Next env s)

/-! Concrete environments used by witnesses and counterexamples. -/

/-- One live log file with batches `(seq 1, count 2)` and `(seq 3, count 1)`,
`LastSequence() = 3`: a clean replay. -/
def envCleanReplay : LogItEnv :=
  { files := [⟨1, WalFileType.kAliveLogFile, 1, 0⟩],
    lastSequence := 3,
    liveOpen := fun n =>
      if n = 1 then Except.ok [⟨20, 1, 2⟩, ⟨20, 3, 1⟩]
      else Except.error (Status.ioError "missing"),
    archivedOpen := fun _ => Except.error (Status.ioError "missing") }

/-- One live log file with batches `(seq 1, count 1)` and `(seq 5, count 1)`
while `LastSequence() = 6`: reading seq 5 after seq 1 triggers a strict
re-seek that cannot land on seq 2 and faults; because `currentLastSeq_ = 5`
is still below `LastSequence()`, a later `Next()` re-seeks non-strictly and
delivers the seq-5 batch. -/
def envFailedReseek : LogItEnv :=
  { files := [⟨1, WalFileType.kAliveLogFile, 1, 0⟩],
    lastSequence := 6,
    liveOpen := fun n =>
      if n = 1 then Except.ok [⟨20, 1, 1⟩, ⟨20, 5, 1⟩]
      else Except.error (Status.ioError "missing"),
    archivedOpen := fun _ => Except.error (Status.ioError "missing") }

/-- One live log file with a single batch `(seq 1, count 2)` while
`LastSequence() = 5`: the writer claims sequences the logs do not contain. -/
def envWriterAhead : LogItEnv :=
  { files := [⟨1, WalFileType.kAliveLogFile, 1, 0⟩],
    lastSequence := 5,
    liveOpen := fun n =>
      if n = 1 then Except.ok [⟨20, 1, 2⟩]
      else Except.error (Status.ioError "missing"),
    archivedOpen := fun _ => Except.error (Status.ioError "missing") }

/-- A `Live` file whose live path is gone but whose archived path still has
the contents: the archive-fallback scenario. -/
def envArchiveFallback : LogItEnv :=
  { files := [⟨1, WalFileType.kAliveLogFile, 1, 0⟩],
    lastSequence := 3,
    liveOpen := fun _ => Except.error (Status.notFound "no such live file"),
    archivedOpen := fun n =>
      if n = 1 then Except.ok [⟨20, 1, 2⟩, ⟨20, 3, 1⟩]
      else Except.error (Status.ioError "missing") }

/-! Shared lemmas. -/

/-- Inversion of a successful `RestrictedRead`: the sequence bound was open,
the record is the head of the reader, and only the reader changed. -/
lemma RestrictedRead_some {env : LogItEnv} {s t : IterState} {r : LogRecord}
    (h : RestrictedRead env s = some (r, t)) :
    s.currentLastSeq < env.lastSequence ∧ s.reader = r :: t.reader ∧
      t = { s with reader := t.reader } := by
  unfold RestrictedRead at h
  by_cases hge : s.currentLastSeq ≥ env.lastSequence
  · simp [hge] at h
  · cases hr : s.reader with
    | nil => simp [hge, hr] at h
    | cons a rest =>
      rw [if_neg hge, hr] at h
      injection h with hpair
      have ha : a = r := congrArg Prod.fst hpair
      have ht : ({ s with reader := rest } : IterState) = t := congrArg Prod.snd hpair
      subst ha
      subst ht
      exact ⟨by omega, rfl, rfl⟩

/-- The gap check of `UpdateCurrentWriteBatch` only fires once the iterator
has started: before that, every update is a plain acceptance. -/
lemma updateCurrentWriteBatch_not_started {env : LogItEnv} {r : LogRecord}
    {s : IterState} (h : s.started = false) :
    updateCurrentWriteBatch env r s = acceptBatch r s := by
  unfold updateCurrentWriteBatch
  simp [h]

/-- Under the loop invariant `started_ = false`, the seek loop of the source
(whose body calls `UpdateCurrentWriteBatch`) with `strict = true` coincides
with the specialised loop whose body is the plain acceptance. -/
lemma seekLoopF_strict_eq_strictSeekLoopF (env : LogItEnv) :
    ∀ fuel (s : IterState), s.started = false →
      seekLoopF env true fuel s = strictSeekLoopF env fuel s := by
  intro fuel
  induction fuel with
  | zero => intro s _; rfl
  | succ n ih =>
    intro s h
    rw [seekLoopF, strictSeekLoopF]
    cases hr : RestrictedRead env s with
    | none => rfl
    | some p =>
      obtain ⟨r, s'⟩ := p
      obtain ⟨-, -, hs'⟩ := RestrictedRead_some hr
      have hst : s'.started = false := by rw [hs']; exact h
      by_cases hsz : r.size < 12
      · simp only [hsz, if_true]
        exact ih s' hst
      · simp only [hsz, if_false, updateCurrentWriteBatch_not_started hst]
        by_cases hreach :
            (acceptBatch r s').currentLastSeq ≥ (acceptBatch r s').startingSequenceNumber
        · simp [hreach]
        · simp only [hreach, if_false]
          exact ih _ (by simpa [acceptBatch] using hst)

/-- Outcome analysis of the strict seek loop entered with `started_ = false`:
whatever state it ends in, if that state has `started_ = true` then the loop
took its successful return, which accepted a batch starting exactly at
`startingSequenceNumber_`, left `isValid_` set and the status OK. -/
lemma strictSeekLoopF_spec (env : LogItEnv) :
    ∀ fuel (s t : IterState), s.started = false →
      (strictSeekLoopF env fuel s = SeekOutcome.returned t ∨
        strictSeekLoopF env fuel s = SeekOutcome.fellThrough t) →
      t.started = true →
      t.currentStatus = Status.ok ∧
        t.currentBatchSeq = s.startingSequenceNumber ∧ t.isValid = true := by
  intro fuel
  induction fuel with
  | zero =>
    intro s t h hout hst
    rcases hout with hout | hout
    · simp [strictSeekLoopF] at hout
    · simp only [strictSeekLoopF] at hout
      cases hout
      rw [h] at hst
      cases hst
  | succ n ih =>
    intro s t h hout hst
    rw [strictSeekLoopF] at hout
    cases hr : RestrictedRead env s with
    | none =>
      simp only [hr] at hout
      rcases hout with hout | hout
      · cases hout
      · cases hout
        rw [h] at hst
        cases hst
    | some p =>
      obtain ⟨r, s'⟩ := p
      simp only [hr] at hout
      obtain ⟨-, -, hs'⟩ := RestrictedRead_some hr
      have hst' : s'.started = false := by rw [hs']; exact h
      have hσ : s'.startingSequenceNumber = s.startingSequenceNumber := by
        rw [hs']
      by_cases hsz : r.size < 12
      · rw [if_pos hsz] at hout
        have := ih s' t hst' hout hst
        rw [hσ] at this
        exact this
      · rw [if_neg hsz] at hout
        by_cases hreach :
            (acceptBatch r s').currentLastSeq ≥ (acceptBatch r s').startingSequenceNumber
        · rw [if_pos hreach] at hout
          by_cases hmis :
              (acceptBatch r s').currentBatchSeq ≠ (acceptBatch r s').startingSequenceNumber
          · rw [if_pos hmis] at hout
            rcases hout with hout | hout
            · cases hout
              simp only [acceptBatch] at hst
              rw [hst'] at hst
              cases hst
            · cases hout
          · rw [if_neg hmis] at hout
            rcases hout with hout | hout
            · cases hout
              push_neg at hmis
              refine ⟨rfl, ?_, rfl⟩
              simpa [acceptBatch, hσ] using hmis
            · cases hout
        · rw [if_neg hreach] at hout
          have := ih _ t (by simpa [acceptBatch] using hst') hout hst
          simpa [acceptBatch, hσ] using this

/-- The strict seek loop never sets `started_` on the fall-through path. -/
lemma strictSeekLoopF_fellThrough_started (env : LogItEnv) :
    ∀ fuel (s t : IterState), s.started = false →
      strictSeekLoopF env fuel s = SeekOutcome.fellThrough t →
      t.started = false := by
  intro fuel
  induction fuel with
  | zero =>
    intro s t h hout
    simp only [strictSeekLoopF] at hout
    cases hout
    exact h
  | succ n ih =>
    intro s t h hout
    rw [strictSeekLoopF] at hout
    cases hr : RestrictedRead env s with
    | none =>
      simp only [hr] at hout
      cases hout
      exact h
    | some p =>
      obtain ⟨r, s'⟩ := p
      simp only [hr] at hout
      obtain ⟨-, -, hs'⟩ := RestrictedRead_some hr
      have hst' : s'.started = false := by rw [hs']; exact h
      by_cases hsz : r.size < 12
      · rw [if_pos hsz] at hout
        exact ih s' t hst' hout
      · rw [if_neg hsz] at hout
        by_cases hreach :
            (acceptBatch r s').currentLastSeq ≥ (acceptBatch r s').startingSequenceNumber
        · rw [if_pos hreach] at hout
          by_cases hmis :
              (acceptBatch r s').currentBatchSeq ≠ (acceptBatch r s').startingSequenceNumber
          · rw [if_pos hmis] at hout
            cases hout
          · rw [if_neg hmis] at hout
            cases hout
        · rw [if_neg hreach] at hout
          exact ih _ t (by simpa [acceptBatch] using hst') hout

/-- If the re-seek invoked by `UpdateCurrentWriteBatch` ends with
`started_ = true`, it accepted a batch starting exactly at the (updated)
`startingSequenceNumber_`, with `isValid_` set and `currentStatus_` reset to
OK. -/
lemma strictReseek_spec (env : LogItEnv) (i : Nat) (s : IterState)
    (h : (strictReseek env i s).started = true) :
    (strictReseek env i s).currentStatus = Status.ok ∧
      (strictReseek env i s).currentBatchSeq = s.startingSequenceNumber ∧
      (strictReseek env i s).isValid = true := by
  unfold strictReseek at h ⊢
  by_cases hb : env.files.length ≤ i
  · rw [if_pos hb] at h
    simp at h
  · rw [if_neg hb] at h ⊢
    cases ho : OpenLogFile env (env.files.getD i defaultLogFile) with
    | error e =>
      simp only [ho] at h
      simp at h
    | ok c =>
      simp only [ho] at h ⊢
      cases hl : strictSeekLoopF env (c.length + 1)
          { s with started := false, isValid := false, reader := c } with
      | returned t =>
        simp only [hl] at h ⊢
        exact strictSeekLoopF_spec env (c.length + 1)
          { s with started := false, isValid := false, reader := c } t rfl (Or.inl hl) h
      | fellThrough t =>
        simp only [hl] at h
        have : t.started = false :=
          strictSeekLoopF_fellThrough_started env (c.length + 1)
            { s with started := false, isValid := false, reader := c } t rfl hl
        rw [show ({ t with currentStatus := Status.corruption gapMsg} : IterState).started
              = t.started from rfl, this] at h
        cases h

/-- The general `SeekToStartSequence` at `strict = true` (whose loop re-runs
the full `UpdateCurrentWriteBatch`) equals the specialised `strictReseek`:
the loop is entered with `started_` cleared, so its updates never re-enter
the re-seek branch. -/
lemma seekToStartSequence_strict_eq (env : LogItEnv) (i : Nat) (s : IterState) :
    seekToStartSequence env i true s = strictReseek env i s := by
  unfold seekToStartSequence strictReseek
  by_cases hb : env.files.length ≤ i
  · rw [if_pos hb, if_pos hb]
  · rw [if_neg hb, if_neg hb]
    cases ho : OpenLogFile env (env.files.getD i defaultLogFile) with
    | error e => rfl
    | ok c =>
      have := seekLoopF_strict_eq_strictSeekLoopF env (c.length + 1)
        { s with started := false, isValid := false, reader := c } rfl
      simp only [this]
      cases strictSeekLoopF env (c.length + 1)
          { s with started := false, isValid := false, reader := c } with
      | returned t => rfl
      | fellThrough t => rfl

/-- On a started iterator, whenever `UpdateCurrentWriteBatch` ends with
`started_` still (or again) true, the batch it recorded starts exactly at the
expected sequence `currentLastSeq_ + 1` — either because the incoming batch
was the expected continuation, or because the strict re-seek landed exactly
on it. -/
lemma updateCurrentWriteBatch_continuity (env : LogItEnv) (r : LogRecord)
    (s : IterState) (hs : s.started = true)
    (h1 : (updateCurrentWriteBatch env r s).started = true) :
    (updateCurrentWriteBatch env r s).currentBatchSeq = s.currentLastSeq + 1 := by
  by_cases hexp : IsBatchExpected r (s.currentLastSeq + 1) = true
  · have hseq : r.seq = s.currentLastSeq + 1 := by
      simpa [IsBatchExpected] using hexp
    unfold updateCurrentWriteBatch
    simp [hs, hexp, acceptBatch, hseq]
  · have hexp' : IsBatchExpected r (s.currentLastSeq + 1) = false :=
      Bool.eq_false_iff.mpr hexp
    unfold updateCurrentWriteBatch at h1 ⊢
    simp only [hs, hexp', Bool.not_false, Bool.and_true, if_true] at h1 ⊢
    exact (strictReseek_spec env _ _ h1).2.1

/-- Over the advance loop of a public `Next` on a started iterator, a
delivered batch (final state has `started_` and `isValid_` set) starts
exactly at `currentLastSeq_ + 1` of the entry state. -/
lemma nextLoopF_continuity (env : LogItEnv) :
    ∀ fuel (s : IterState), s.started = true → s.isValid = false →
      (nextLoopF env false fuel s).started = true →
      (nextLoopF env false fuel s).isValid = true →
      (nextLoopF env false fuel s).currentBatchSeq = s.currentLastSeq + 1 := by
  intro fuel
  induction fuel with
  | zero =>
    intro s hst hiv h1 h2
    simp only [nextLoopF] at h2
    rw [hiv] at h2
    cases h2
  | succ n ih =>
    intro s hst hiv h1 h2
    rw [nextLoopF] at h1 h2 ⊢
    cases hr : RestrictedRead env s with
    | some p =>
      obtain ⟨r, s'⟩ := p
      simp only [hr] at h1 h2 ⊢
      obtain ⟨-, -, hs'⟩ := RestrictedRead_some hr
      have hst' : s'.started = true := by rw [hs']; exact hst
      have hiv' : s'.isValid = false := by rw [hs']; exact hiv
      have hlast : s'.currentLastSeq = s.currentLastSeq := by rw [hs']
      by_cases hsz : r.size < 12
      · rw [if_pos hsz] at h1 h2 ⊢
        rw [← hlast]
        exact ih s' hst' hiv' h1 h2
      · rw [if_neg hsz] at h1 h2 ⊢
        simp only [Bool.false_and, Bool.false_eq_true, if_false] at h1 h2 ⊢
        rw [← hlast]
        exact updateCurrentWriteBatch_continuity env r s' hst' h1
    | none =>
      simp only [hr] at h1 h2 ⊢
      by_cases hidx : s.currentFileIndex < env.files.length - 1
      · rw [if_pos hidx] at h1 h2 ⊢
        cases ho : OpenLogFile env
            (env.files.getD (s.currentFileIndex + 1) defaultLogFile) with
        | error e =>
          simp only [ho] at h2
          simp at h2
        | ok c =>
          simp only [ho] at h1 h2 ⊢
          exact ih { s with currentFileIndex := s.currentFileIndex + 1, reader := c }
            (by simpa using hst) (by simpa using hiv) h1 h2
      · rw [if_neg hidx] at h2
        simp at h2

/-- Claim C1 (counterexample).  The run over `envFailedReseek` delivers the
batch `(seq 1, count 1)`, then a `Next()` detects the gap to seq 5, fails the
strict re-seek (`Valid()` false), and the following `Next()` re-seeks
non-strictly and delivers the batch starting at seq 5: two consecutively
delivered batches with `B2.start_seq = 5 ≠ 2 = B1.start_seq + B1.count`. -/
theorem c1_counterexample :
    (Valid (mkIterator envFailedReseek 1) = true ∧
      (GetBatch (mkIterator envFailedReseek 1)).1 =
        { sequence := 1, batch := some ⟨20, 1, 1⟩ }) ∧
    Valid (Next envFailedReseek
      ((GetBatch (mkIterator envFailedReseek 1)).2)) = false ∧
    (Valid (Next envFailedReseek (Next envFailedReseek
        ((GetBatch (mkIterator envFailedReseek 1)).2))) = true ∧
      (GetBatch (Next envFailedReseek (Next envFailedReseek
        ((GetBatch (mkIterator envFailedReseek 1)).2)))).1.sequence = 5) ∧
    ¬ (GetBatch (Next envFailedReseek (Next envFailedReseek
        ((GetBatch (mkIterator envFailedReseek 1)).2)))).1.sequence = 1 + 1 := by
  decide

/-- Claim C1 (amended): contiguity holds between a delivered batch and the
batch delivered by the single `Next()` call immediately following it: if
`Valid()` is true before and after one `Next()`, the new batch starts at
`currentLastSeq_ + 1` of the previous state.  (Across a full run the claim
fails: after a failed strict re-seek — `Valid()` false in between — a later
`Next()` may deliver a non-contiguous batch, see the counterexample.) -/
theorem c1_amended (env : LogItEnv) (s : IterState)
    (h1 : Valid s = true) (h2 : Valid (Next env s) = true) :
    (Next env s).currentBatchSeq = s.currentLastSeq + 1 := by
  have hst : s.started = true := by
    unfold Valid at h1
    simp only [Bool.and_eq_true] at h1
    exact h1.1
  unfold Next nextImpl at h2 ⊢
  simp only [hst, Bool.not_false, Bool.not_true, Bool.true_and, Bool.false_eq_true,
    if_false] at h2 ⊢
  unfold Valid at h2
  simp only [Bool.and_eq_true] at h2
  exact nextLoopF_continuity env _ _ rfl rfl h2.1 h2.2

/-- Claim C1 (amended, witness): on the clean-replay run the second delivered
batch starts at `currentLastSeq_ + 1` of the first. -/
theorem c1_amended_witness :
    Valid (mkIterator envCleanReplay 1) = true ∧
    Valid (Next envCleanReplay (mkIterator envCleanReplay 1)) = true ∧
    (Next envCleanReplay (mkIterator envCleanReplay 1)).currentBatchSeq =
      (mkIterator envCleanReplay 1).currentLastSeq + 1 :=
  ⟨by decide, by decide,
    c1_amended envCleanReplay (mkIterator envCleanReplay 1) (by decide) (by decide)⟩

/-- Clearing `isValid_` is the identity on a state whose flag is already
clear. -/
lemma setInvalid_eq_self {s : IterState} (h : s.isValid = false) :
    ({ s with isValid := false } : IterState) = s := by
  cases s
  simp_all

/-- The state reached after latching `NO MORE DATA LEFT` (started, invalid,
reader drained, at the last file, below `LastSequence()`) is a fixed point of
`Next`: the advance re-runs the same exhausted scan and re-derives the same
status. -/
lemma next_nmd_fixpoint (env : LogItEnv) (s : IterState)
    (h1 : s.started = true) (h2 : s.isValid = false) (h3 : s.reader = [])
    (h4 : ¬ s.currentFileIndex < env.files.length - 1)
    (h5 : s.currentLastSeq ≠ env.lastSequence)
    (h6 : s.currentStatus = Status.corruption noMoreDataMsg) :
    Next env s = s := by
  unfold Next nextImpl
  rw [setInvalid_eq_self h2]
  simp only [h1, Bool.not_true, Bool.true_and, Bool.not_false, Bool.false_eq_true, if_false]
  have hrr : RestrictedRead env s = none := by
    unfold RestrictedRead
    by_cases hge : s.currentLastSeq ≥ env.lastSequence
    · rw [if_pos hge]
    · rw [if_neg hge, h3]
  unfold nextFuel
  rw [nextLoopF]
  simp only [hrr, h4, if_false, if_neg h5]
  cases s
  simp_all

/-- Claim C2 (counterexample).  The strict-seek gap Corruption is not sticky:
over `envFailedReseek` the first `Next()` latches it with `Valid()` false,
but the following `Next()` re-seeks non-strictly, turns `Valid()` true and
resets the status to OK. -/
theorem c2_counterexample :
    status (Next envFailedReseek (mkIterator envFailedReseek 1)) =
      Status.corruption gapMsg ∧
    Valid (Next envFailedReseek (mkIterator envFailedReseek 1)) = false ∧
    Valid (Next envFailedReseek
      (Next envFailedReseek (mkIterator envFailedReseek 1))) = true ∧
    status (Next envFailedReseek
      (Next envFailedReseek (mkIterator envFailedReseek 1))) = Status.ok := by
  decide

/-- Claim C2 (amended): stickiness holds for `Corruption("NO MORE DATA LEFT")`.
From the state that latches it (started, invalid, reader drained at the last
file, `currentLastSeq_ ≠ LastSequence()`), every number of further `Next()`
calls leaves `Valid()` false and `status()` returning that same Corruption.
(The strict-seek gap Corruption and an open-error status are not sticky: a
later `Next()` can re-seek or skip the failed file and reset the status to
OK, see the counterexample.) -/
theorem c2_amended (env : LogItEnv) (s : IterState)
    (h1 : s.started = true) (h2 : s.isValid = false) (h3 : s.reader = [])
    (h4 : ¬ s.currentFileIndex < env.files.length - 1)
    (h5 : s.currentLastSeq ≠ env.lastSequence)
    (h6 : s.currentStatus = Status.corruption noMoreDataMsg) :
    ∀ n : Nat, Valid (iterNext env n s) = false ∧
      status (iterNext env n s) = Status.corruption noMoreDataMsg := by
  have hfix : Next env s = s := next_nmd_fixpoint env s h1 h2 h3 h4 h5 h6
  intro n
  induction n with
  | zero =>
    constructor
    · unfold iterNext Valid
      rw [h2, Bool.and_false]
    · unfold iterNext status
      exact h6
  | succ k ihk =>
    rw [iterNext, hfix]
    exact ihk

/-- Claim C2 (amended, witness): over `envWriterAhead`, after
`NO MORE DATA LEFT` is latched, three further `Next()` calls keep `Valid()`
false and the status unchanged. -/
theorem c2_amended_witness :
    Valid (iterNext envWriterAhead 3
      (Next envWriterAhead (mkIterator envWriterAhead 1))) = false ∧
    status (iterNext envWriterAhead 3
      (Next envWriterAhead (mkIterator envWriterAhead 1))) =
      Status.corruption noMoreDataMsg :=
  c2_amended envWriterAhead (Next envWriterAhead (mkIterator envWriterAhead 1))
    (by decide) (by decide) (by decide) (by decide) (by decide) (by decide) 3

/-- Claim C3: when an advance runs past the last file (no record available at
the last file index), the iterator clears `isValid_` and reports OK exactly
when `currentLastSeq_` equals `LastSequence()`, otherwise
`Corruption("NO MORE DATA LEFT")`. -/
theorem c3_past_last_file (env : LogItEnv) (s : IterState)
    (h1 : s.started = true)
    (h2 : s.currentLastSeq ≥ env.lastSequence ∨ s.reader = [])
    (h3 : ¬ s.currentFileIndex < env.files.length - 1) :
    (Next env s).isValid = false ∧
    (Next env s).currentStatus =
      (if s.currentLastSeq = env.lastSequence then Status.ok
       else Status.corruption noMoreDataMsg) := by
  unfold Next nextImpl
  simp only [h1, Bool.not_true, Bool.true_and, Bool.not_false, Bool.false_eq_true, if_false]
  have hrr : RestrictedRead env { s with started := true, isValid := false } = none := by
    unfold RestrictedRead
    rcases h2 with h2 | h2
    · simp [h2]
    · simp [h2, ite_self]
  unfold nextFuel
  rw [nextLoopF]
  simp only [hrr, h3, if_false]
  exact ⟨trivial, trivial⟩

/-- Claim C3 (witness): the clean replay ends with `isValid_` false and
status OK once `currentLastSeq_ = LastSequence() = 3`. -/
theorem c3_witness :
    (Next envCleanReplay
      (Next envCleanReplay (mkIterator envCleanReplay 1))).isValid = false ∧
    (Next envCleanReplay
      (Next envCleanReplay (mkIterator envCleanReplay 1))).currentStatus =
      (if (Next envCleanReplay (mkIterator envCleanReplay 1)).currentLastSeq =
          envCleanReplay.lastSequence then Status.ok
       else Status.corruption noMoreDataMsg) :=
  c3_past_last_file envCleanReplay (Next envCleanReplay (mkIterator envCleanReplay 1))
    (by decide) (Or.inr (by decide)) (by decide)

/-- Claim C4: on a started iterator, an unexpected batch makes
`UpdateCurrentWriteBatch` step the file index back by one exactly when the
expected sequence lies before the current file's start sequence (never at
index 0), set `startingSequenceNumber_` to the expected sequence, latch
`NotFound("Gap in sequence numbers")`, and re-enter the seek with
`strict = true`; and if that re-seek accepts a batch (`started_` true again),
`currentStatus_` has been reset to OK. -/
theorem c4_gap_reseek (env : LogItEnv) (r : LogRecord) (s : IterState)
    (h1 : s.started = true)
    (h2 : IsBatchExpected r (s.currentLastSeq + 1) = false) :
    updateCurrentWriteBatch env r s =
      seekToStartSequence env
        (if s.currentLastSeq + 1 <
            (env.files.getD s.currentFileIndex defaultLogFile).startSequence then
          (if s.currentFileIndex ≠ 0 then s.currentFileIndex - 1
           else s.currentFileIndex)
         else s.currentFileIndex)
        true
        { s with
            currentFileIndex :=
              (if s.currentLastSeq + 1 <
                  (env.files.getD s.currentFileIndex defaultLogFile).startSequence then
                (if s.currentFileIndex ≠ 0 then s.currentFileIndex - 1
                 else s.currentFileIndex)
               else s.currentFileIndex),
            startingSequenceNumber := s.currentLastSeq + 1,
            currentStatus := Status.notFound gapNotFoundMsg } ∧
    ((updateCurrentWriteBatch env r s).started = true →
      (updateCurrentWriteBatch env r s).currentStatus = Status.ok) := by
  constructor
  · rw [seekToStartSequence_strict_eq]
    unfold updateCurrentWriteBatch
    simp only [h1, h2, Bool.not_false, Bool.and_self, if_true]
  · intro h
    unfold updateCurrentWriteBatch at h ⊢
    simp only [h1, h2, Bool.not_false, Bool.and_self, if_true] at h ⊢
    exact (strictReseek_spec env _ _ h).1

/-- Claim C4 (witness): the gap from seq 1 to seq 5 over `envFailedReseek`
re-enters the strict seek at file index 0 with expected sequence 2. -/
theorem c4_witness :
    updateCurrentWriteBatch envFailedReseek ⟨20, 5, 1⟩ (mkIterator envFailedReseek 1) =
      seekToStartSequence envFailedReseek 0 true
        { mkIterator envFailedReseek 1 with
            currentFileIndex := 0,
            startingSequenceNumber := 2,
            currentStatus := Status.notFound gapNotFoundMsg } ∧
    ((updateCurrentWriteBatch envFailedReseek ⟨20, 5, 1⟩
        (mkIterator envFailedReseek 1)).started = true →
      (updateCurrentWriteBatch envFailedReseek ⟨20, 5, 1⟩
        (mkIterator envFailedReseek 1)).currentStatus = Status.ok) :=
  c4_gap_reseek envFailedReseek ⟨20, 5, 1⟩ (mkIterator envFailedReseek 1)
    (by decide) (by decide)

/-- Claim C5: during a strict seek, when the batch at the head of the reader
is the first whose last sequence reaches `startingSequenceNumber_` but whose
start sequence differs from it, the loop returns with
`Corruption("Gap in sequence number. Could not seek to required sequence
number")` and `Valid()` is false. -/
theorem c5_strict_seek_gap (env : LogItEnv) (s : IterState) (r : LogRecord)
    (rest : List LogRecord) (fuel : Nat)
    (h0 : s.started = false)
    (h1 : s.reader = r :: rest)
    (h2 : s.currentLastSeq < env.lastSequence)
    (h3 : ¬ r.size < 12)
    (h4 : s.startingSequenceNumber ≤ r.seq + r.count - 1)
    (h5 : r.seq ≠ s.startingSequenceNumber) :
    seekLoopF env true (fuel + 1) s =
      SeekOutcome.returned
        { acceptBatch r { s with reader := rest } with
            currentStatus := Status.corruption gapMsg } ∧
    Valid { acceptBatch r { s with reader := rest } with
            currentStatus := Status.corruption gapMsg } = false := by
  have hrr : RestrictedRead env s = some (r, { s with reader := rest }) := by
    unfold RestrictedRead
    rw [if_neg (by omega), h1]
  constructor
  · rw [seekLoopF]
    simp only [hrr]
    rw [if_neg h3,
      updateCurrentWriteBatch_not_started (show ({ s with reader := rest} : IterState).started = false from h0)]
    rw [if_pos (show (acceptBatch r { s with reader := rest }).currentLastSeq ≥
      (acceptBatch r { s with reader := rest }).startingSequenceNumber from h4)]
    rw [if_pos]
    simp [acceptBatch, h5]
  · simp [Valid, acceptBatch, h0]

/-- Claim C5 (witness): the strict re-seek over `envFailedReseek` reads the
batch `(seq 5, count 1)` while looking for sequence 2 and faults. -/
theorem c5_witness :
    seekLoopF envFailedReseek true 1
      ⟨2, false, false, Status.notFound gapNotFoundMsg, 0, 1, 1,
        some ⟨20, 1, 1⟩, [⟨20, 5, 1⟩]⟩ =
      SeekOutcome.returned
        { acceptBatch ⟨20, 5, 1⟩
            { (⟨2, false, false, Status.notFound gapNotFoundMsg, 0, 1, 1,
                some ⟨20, 1, 1⟩, [⟨20, 5, 1⟩]⟩ : IterState) with reader := [] } with
            currentStatus := Status.corruption gapMsg } ∧
    Valid { acceptBatch ⟨20, 5, 1⟩
            { (⟨2, false, false, Status.notFound gapNotFoundMsg, 0, 1, 1,
                some ⟨20, 1, 1⟩, [⟨20, 5, 1⟩]⟩ : IterState) with reader := [] } with
            currentStatus := Status.corruption gapMsg } = false :=
  c5_strict_seek_gap envFailedReseek _ ⟨20, 5, 1⟩ [] 0 (by decide) (by decide)
    (by decide) (by decide) (by decide) (by decide)

/-- Claim C6: whenever `currentLastSeq_ >= versions_->LastSequence()`,
`RestrictedRead` returns false without consulting the underlying reader, in
every state (in particular with unread records still pending). -/
theorem c6_restricted_read (env : LogItEnv) (s : IterState)
    (h : s.currentLastSeq ≥ env.lastSequence) :
    RestrictedRead env s = none := by
  unfold RestrictedRead
  rw [if_pos h]

/-- Claim C6 (witness): with `currentLastSeq_ = 3 = LastSequence()` and a
pending record, the read is refused. -/
theorem c6_witness :
    RestrictedRead envCleanReplay
      ⟨1, true, true, Status.ok, 0, 3, 3, none, [⟨20, 9, 1⟩]⟩ = none :=
  c6_restricted_read envCleanReplay
    ⟨1, true, true, Status.ok, 0, 3, 3, none, [⟨20, 9, 1⟩]⟩ (by decide)

/-- Claim C7: under the precondition that the batch's sequence range lies
within `LastSequence()`, the assertion
`currentLastSeq_ <= versions_->LastSequence()` holds immediately after the
acceptance of the batch — both at the acceptance point itself and through
`UpdateCurrentWriteBatch` when the batch is the expected continuation. -/
theorem c7_upper_bound (env : LogItEnv) (r : LogRecord) (s : IterState)
    (h : r.seq + r.count - 1 ≤ env.lastSequence) :
    (acceptBatch r s).currentLastSeq ≤ env.lastSequence ∧
    (IsBatchExpected r (s.currentLastSeq + 1) = true →
      (updateCurrentWriteBatch env r s).currentLastSeq ≤ env.lastSequence) := by
  constructor
  · simpa [acceptBatch] using h
  · intro hexp
    unfold updateCurrentWriteBatch
    simp only [hexp, Bool.not_true, Bool.and_false, Bool.false_eq_true, if_false]
    simpa [acceptBatch] using h

/-- Claim C7 (witness): accepting `(seq 2, count 2)` with
`LastSequence() = 3` satisfies the assertion. -/
theorem c7_witness :
    (acceptBatch ⟨20, 2, 2⟩
      ⟨1, true, false, Status.ok, 0, 1, 1, none, []⟩).currentLastSeq ≤
      envCleanReplay.lastSequence ∧
    (IsBatchExpected ⟨20, 2, 2⟩
        ((⟨1, true, false, Status.ok, 0, 1, 1, none, []⟩ : IterState).currentLastSeq + 1) = true →
      (updateCurrentWriteBatch envCleanReplay ⟨20, 2, 2⟩
        ⟨1, true, false, Status.ok, 0, 1, 1, none, []⟩).currentLastSeq ≤
        envCleanReplay.lastSequence) :=
  c7_upper_bound envCleanReplay ⟨20, 2, 2⟩
    ⟨1, true, false, Status.ok, 0, 1, 1, none, []⟩ (by decide)

/-- Claim C8: an `Archived` descriptor opens only the archived path; a `Live`
descriptor first tries the live path, and on any open error retries the
archived path — so a `Live` file missing from the live directory but present
in the archive opens successfully. -/
theorem c8_open_fallback (env : LogItEnv) (f : LogFileDesc) (e : Status)
    (c : List LogRecord)
    (h1 : f.type = WalFileType.kAliveLogFile)
    (h2 : env.liveOpen f.logNumber = Except.error e)
    (h3 : env.archivedOpen f.logNumber = Except.ok c) :
    OpenLogFile env f = Except.ok c ∧
    (∀ g : LogFileDesc, g.type = WalFileType.kArchivedLogFile →
      OpenLogFile env g = env.archivedOpen g.logNumber) ∧
    (∀ (g : LogFileDesc) (e' : Status), g.type = WalFileType.kAliveLogFile →
      env.liveOpen g.logNumber = Except.error e' →
      OpenLogFile env g = env.archivedOpen g.logNumber) ∧
    (∀ (g : LogFileDesc) (c' : List LogRecord), g.type = WalFileType.kAliveLogFile →
      env.liveOpen g.logNumber = Except.ok c' →
      OpenLogFile env g = Except.ok c') := by
  refine ⟨?_, ?_, ?_, ?_⟩
  · unfold OpenLogFile
    simp only [h1, h2, h3]
  · intro g hg
    unfold OpenLogFile
    simp only [hg]
  · intro g e' hg hl
    unfold OpenLogFile
    simp only [hg, hl]
  · intro g c' hg hl
    unfold OpenLogFile
    simp only [hg, hl]

/-- Claim C8 (witness): over `envArchiveFallback` the live path of file 1 is
missing but the archived path has the contents, and the open succeeds. -/
theorem c8_witness :
    OpenLogFile envArchiveFallback ⟨1, WalFileType.kAliveLogFile, 1, 0⟩ =
      Except.ok [⟨20, 1, 2⟩, ⟨20, 3, 1⟩] ∧
    (∀ g : LogFileDesc, g.type = WalFileType.kArchivedLogFile →
      OpenLogFile envArchiveFallback g = envArchiveFallback.archivedOpen g.logNumber) ∧
    (∀ (g : LogFileDesc) (e' : Status), g.type = WalFileType.kAliveLogFile →
      envArchiveFallback.liveOpen g.logNumber = Except.error e' →
      OpenLogFile envArchiveFallback g = envArchiveFallback.archivedOpen g.logNumber) ∧
    (∀ (g : LogFileDesc) (c' : List LogRecord), g.type = WalFileType.kAliveLogFile →
      envArchiveFallback.liveOpen g.logNumber = Except.ok c' →
      OpenLogFile envArchiveFallback g = Except.ok c') :=
  c8_open_fallback envArchiveFallback ⟨1, WalFileType.kAliveLogFile, 1, 0⟩
    (Status.notFound "no such live file") [⟨20, 1, 2⟩, ⟨20, 3, 1⟩]
    rfl rfl rfl

/-- Claim C9: `GetBatch` is gated only by the `isValid_` flag.  After the
failed strict re-seek over `envFailedReseek`, the iterator is in a reachable
state with `Valid()` false but `isValid_` still true and `started_` false, in
which `GetBatch`'s assertion passes and it returns the last decoded batch
`(seq 5, count 1)`. -/
theorem c9_getbatch_isvalid_only :
    Valid (Next envFailedReseek (mkIterator envFailedReseek 1)) = false ∧
    (Next envFailedReseek (mkIterator envFailedReseek 1)).isValid = true ∧
    (Next envFailedReseek (mkIterator envFailedReseek 1)).started = false ∧
    (GetBatch (Next envFailedReseek (mkIterator envFailedReseek 1))).1 =
      { sequence := 5, batch := some ⟨20, 5, 1⟩ } := by
  decide

/-- The fuel budget of the advance loop is positive. -/
lemma nextFuel_pos (env : LogItEnv) (s : IterState) : 0 < nextFuel env s := by
  unfold nextFuel
  omega

/-- Consuming one record of the open reader consumes exactly one unit of the
fuel budget. -/
lemma nextFuel_tail (env : LogItEnv) {s t : IterState}
    (hidx : t.currentFileIndex = s.currentFileIndex)
    (hlen : t.reader.length + 1 = s.reader.length) :
    nextFuel env t + 1 = nextFuel env s := by
  unfold nextFuel
  rw [hidx]
  omega

/-- Advancing into the next file strictly decreases the fuel budget: the new
file's records were accounted for in the budget of the files beyond the
current one. -/
lemma nextFuel_advance (env : LogItEnv) {s : IterState} {c : List LogRecord}
    (hidx : s.currentFileIndex < env.files.length - 1)
    (ho : OpenLogFile env
      (env.files.getD (s.currentFileIndex + 1) defaultLogFile) = Except.ok c) :
    nextFuel env { s with currentFileIndex := s.currentFileIndex + 1, reader := c } + 1 ≤
      nextFuel env s := by
  have hlt : s.currentFileIndex + 1 < env.files.length := by omega
  have hgetD : env.files.getD (s.currentFileIndex + 1) defaultLogFile =
      env.files[s.currentFileIndex + 1] :=
    List.getD_eq_getElem env.files defaultLogFile hlt
  have hdrop : env.files.drop (s.currentFileIndex + 1) =
      env.files[s.currentFileIndex + 1] :: env.files.drop (s.currentFileIndex + 1 + 1) :=
    List.drop_eq_getElem_cons hlt
  have hfile : fileFuel env env.files[s.currentFileIndex + 1] = c.length + 1 := by
    unfold fileFuel
    rw [← hgetD, ho]
  unfold nextFuel
  simp only [hdrop, List.map_cons, List.sum_cons, hfile]
  omega

/-- Any fuel above the reader length gives the seek loop the same result (on
its reachable entry, `started_ = false`): the loop consumes one record per
step and terminates. -/
lemma seekLoopF_fuel_irrelevant (env : LogItEnv) (strict : Bool) :
    ∀ f1 (s : IterState) f2, s.started = false →
      s.reader.length < f1 → s.reader.length < f2 →
      seekLoopF env strict f1 s = seekLoopF env strict f2 s := by
  intro f1
  induction f1 with
  | zero =>
    intro s f2 _ hl1 _
    omega
  | succ n ih =>
    intro s f2 h hl1 hl2
    cases f2 with
    | zero => omega
    | succ m =>
      rw [seekLoopF, seekLoopF]
      cases hr : RestrictedRead env s with
      | none => rfl
      | some p =>
        obtain ⟨r, s'⟩ := p
        dsimp only
        obtain ⟨-, hreader, hs'⟩ := RestrictedRead_some hr
        have hst' : s'.started = false := by rw [hs']; exact h
        have hlen : s'.reader.length + 1 = s.reader.length := by
          rw [hreader]
          simp
        by_cases hsz : r.size < 12
        · rw [if_pos hsz, if_pos hsz]
          exact ih s' m hst' (by omega) (by omega)
        · rw [if_neg hsz, if_neg hsz]
          simp only [updateCurrentWriteBatch_not_started hst']
          by_cases hreach :
              (acceptBatch r s').currentLastSeq ≥ (acceptBatch r s').startingSequenceNumber
          · rw [if_pos hreach, if_pos hreach]
          · rw [if_neg hreach, if_neg hreach]
            exact ih { acceptBatch r s' with isValid := false } m
              (by simpa [acceptBatch] using hst')
              (by simpa [acceptBatch] using show s'.reader.length < n by omega)
              (by simpa [acceptBatch] using show s'.reader.length < m by omega)

/-- Any fuel at or above `nextFuel` gives the advance loop the same result:
each step either consumes a record of the open reader or advances into the
next file, and the budget covers both, so the loop terminates. -/
lemma nextLoopF_fuel_irrelevant (env : LogItEnv) (internal : Bool) :
    ∀ f1 (s : IterState) f2, nextFuel env s ≤ f1 → nextFuel env s ≤ f2 →
      nextLoopF env internal f1 s = nextLoopF env internal f2 s := by
  intro f1
  induction f1 with
  | zero =>
    intro s f2 h1 _
    have := nextFuel_pos env s
    omega
  | succ n ih =>
    intro s f2 h1 h2
    cases f2 with
    | zero =>
      have := nextFuel_pos env s
      omega
    | succ m =>
      rw [nextLoopF, nextLoopF]
      cases hr : RestrictedRead env s with
      | some p =>
        obtain ⟨r, s'⟩ := p
        dsimp only
        obtain ⟨-, hreader, hs'⟩ := RestrictedRead_some hr
        have hidx : s'.currentFileIndex = s.currentFileIndex := by rw [hs']
        have hlen : s'.reader.length + 1 = s.reader.length := by
          rw [hreader]
          simp
        have hfuel : nextFuel env s' + 1 = nextFuel env s := nextFuel_tail env hidx hlen
        by_cases hsz : r.size < 12
        · rw [if_pos hsz, if_pos hsz]
          exact ih s' m (by omega) (by omega)
        · rw [if_neg hsz, if_neg hsz]
      | none =>
        dsimp only
        by_cases hidx : s.currentFileIndex < env.files.length - 1
        · rw [if_pos hidx, if_pos hidx]
          cases ho : OpenLogFile env
              (env.files.getD (s.currentFileIndex + 1) defaultLogFile) with
          | error e => rfl
          | ok c =>
            have hfuel := nextFuel_advance env hidx ho
            exact ih { s with currentFileIndex := s.currentFileIndex + 1, reader := c } m
              (by omega) (by omega)
        · rw [if_neg hidx, if_neg hidx]

/-- Claim C10: every public operation terminates on finite file lists and
record streams.  In this embedding every operation is a total function whose
loops carry an explicit fuel; the theorem states the facts that make the fuel
honest and the recursion depth-one: (1) before `started_` is set,
`UpdateCurrentWriteBatch` is a plain acceptance — the gap re-seek cannot
re-enter; (2) consequently the strict re-seek entered from
`UpdateCurrentWriteBatch` equals its one-level specialisation; (3) the seek
loop's result is independent of any fuel above the reader length; (4) the
advance loop's result is independent of any fuel at or above the `nextFuel`
budget the public operations supply. -/
theorem c10_termination :
    (∀ (env : LogItEnv) (r : LogRecord) (s : IterState), s.started = false →
      updateCurrentWriteBatch env r s = acceptBatch r s) ∧
    (∀ (env : LogItEnv) (i : Nat) (s : IterState),
      seekToStartSequence env i true s = strictReseek env i s) ∧
    (∀ (env : LogItEnv) (strict : Bool) (s : IterState) (f1 f2 : Nat),
      s.started = false → s.reader.length < f1 → s.reader.length < f2 →
      seekLoopF env strict f1 s = seekLoopF env strict f2 s) ∧
    (∀ (env : LogItEnv) (internal : Bool) (s : IterState) (f1 f2 : Nat),
      nextFuel env s ≤ f1 → nextFuel env s ≤ f2 →
      nextLoopF env internal f1 s = nextLoopF env internal f2 s) :=
  ⟨fun _ _ _ h => updateCurrentWriteBatch_not_started h,
   fun env i s => seekToStartSequence_strict_eq env i s,
   fun env strict s f1 f2 h h1 h2 => seekLoopF_fuel_irrelevant env strict f1 s f2 h h1 h2,
   fun env internal s f1 f2 h1 h2 => nextLoopF_fuel_irrelevant env internal f1 s f2 h1 h2⟩

/-- Claim C10 (witness): concrete instances of all four conjuncts. -/
theorem c10_witness :
    updateCurrentWriteBatch envCleanReplay ⟨20, 9, 9⟩ (initialState 1) =
      acceptBatch ⟨20, 9, 9⟩ (initialState 1) ∧
    seekToStartSequence envCleanReplay 0 true (initialState 1) =
      strictReseek envCleanReplay 0 (initialState 1) ∧
    seekLoopF envCleanReplay true 5 (initialState 1) =
      seekLoopF envCleanReplay true 9 (initialState 1) ∧
    nextLoopF envCleanReplay false (nextFuel envCleanReplay (initialState 1) + 3)
        (initialState 1) =
      nextLoopF envCleanReplay false (nextFuel envCleanReplay (initialState 1))
        (initialState 1) :=
  ⟨c10_termination.1 envCleanReplay ⟨20, 9, 9⟩ (initialState 1) rfl,
   c10_termination.2.1 envCleanReplay 0 (initialState 1),
   c10_termination.2.2.1 envCleanReplay true (initialState 1) 5 9 rfl
     (by decide) (by decide),
   c10_termination.2.2.2 envCleanReplay false (initialState 1) _ _
     (by omega) (by omega)⟩

end TxnLogIter
